import Mathlib

/-!
Shallow embedding, in Lean 4, of the agent-graph progress system:

* the publish endpoint (`app/api/progress/push/route.ts`, here `POST`);
* the graph query endpoint (`app/api/agents/graph/route.ts`, here `GET`);
* the static agent graph (`lib/agents-graph.ts`: `nodes`, `edges`,
  `getAgentGraph`);
* the client page (`app/agents/page.tsx`): the layout engine
  (`computeLayout`), the correlation engine (`matchAgentByMessage`) and the
  activity decay tracker (`recordActive` / `sweepActive` / `isActive`).

JavaScript strings are embedded as Lean `String`; the handful of string
primitives the code uses (`trim`, `toLowerCase`, `includes`,
`localeCompare`-based sorting) are given executable list-based definitions
below so that concrete runs reduce inside the kernel.  `localeCompare` is
embedded as code-point lexicographic order (all strings in this repository
are ASCII, where the two orders agree), and `Array.prototype.sort` — which
ECMAScript requires to be a stable sort — is embedded as a stable insertion
sort.  Millisecond timestamps are embedded as `Nat`.
-/

/-! ## String primitives -/

/-- ASCII lower-casing of one character, as `String.prototype.toLowerCase`
acts on the ASCII range. -/
def lowerChar (c : Char) : Char :=
  if 'A' ≤ c ∧ c ≤ 'Z' then Char.ofNat (c.toNat + 32) else c

/-- Embedding of `String.prototype.toLowerCase` (ASCII range). -/
def jsToLower (s : String) : String := ⟨s.data.map lowerChar⟩

/-- Whitespace predicate used by `String.prototype.trim`. -/
def jsIsWs (c : Char) : Bool := c = ' ' ∨ c = '\t' ∨ c = '\n' ∨ c = '\r'

/-- Embedding of `String.prototype.trim`: strip leading and trailing
whitespace. -/
def jsTrim (s : String) : String :=
  ⟨((s.data.dropWhile jsIsWs).reverse.dropWhile jsIsWs).reverse⟩

/-- Embedding of `String.prototype.includes`: substring containment. -/
def strIncludes (hay pat : String) : Bool :=
  go pat.data hay.data
where
  go (p : List Char) : List Char → Bool
    | [] => p.isEmpty
    | c :: rest => p.isPrefixOf (c :: rest) || go p rest

/-- Code-point lexicographic comparison on character lists, the embedding of
the `a.localeCompare(b) ≤ 0` comparator (ASCII strings). -/
def lexLe : List Char → List Char → Bool
  | [], _ => true
  | _ :: _, [] => false
  | a :: as, b :: bs =>
    if a.toNat < b.toNat then true
    else if b.toNat < a.toNat then false
    else lexLe as bs

/-- Comparator used to sort nodes by display name. -/
def nameLe (a b : String) : Bool := lexLe a.data b.data


/-! ## Data model (`lib/agents-graph.ts`, mirrored in `app/agents/page.tsx`) -/

/-- The closed set of node group tags (`AgentNode["group"]`). -/
inductive AgentGroup where
  | orchestration
  | analysis
  | generation
  | media
  | progress
deriving DecidableEq, Repr

/-- HTTP method verbs a node supports. -/
inductive Method where
  | GET
  | POST
  | DELETE
deriving DecidableEq, Repr

/-- One workflow node (`type AgentNode`). -/
structure AgentNode where
  id : String
  name : String
  path : String
  methods : List Method
  description : Option String := none
  group : AgentGroup
  env : Option (List String) := none
deriving DecidableEq, Repr

/-- One directed edge (`type AgentEdge`); `from`/`to` are Lean keywords, so
the fields are named `fromId`/`toId`. -/
structure AgentEdge where
  fromId : String
  toId : String
  label : Option String := none
  optional : Option Bool := none
deriving DecidableEq, Repr

/-- The workflow graph (`type AgentGraph`). -/
structure AgentGraph where
  nodes : List AgentNode
  edges : List AgentEdge
deriving DecidableEq, Repr

/-! ## Publish endpoint (`app/api/progress/push/route.ts`) -/

/-- The JSON request body of the publish endpoint.  Each field models
`typeof body?.f === "string" ? ... : undefined`; non-string JSON values
behave as absent, which the `Option` encoding captures.  The arbitrary
structured `data` payload is carried as an uninterpreted optional value. -/
structure PublishBody where
  session : Option String := none
  message : Option String := none
  agentId : Option String := none
  status : Option String := none
  data : Option String := none
deriving DecidableEq, Repr

/-- The event object handed to `getBus().publish` (`{ text, agentId, status,
data, ts }`). -/
structure BusEvent where
  text : Option String
  agentId : Option String
  status : Option String
  data : Option String
  ts : Nat
deriving DecidableEq, Repr

/-- Shape of the JSON response of the publish endpoint. -/
structure PushResponse where
  status : Nat
  ok : Bool
  error : Option String := none
deriving DecidableEq, Repr

/-- Embedding of the session normalization, JS expression
`String(body?.session || "default")`: an absent or empty (falsy) session
becomes `"default"`. -/
def sessionOf (b : PublishBody) : String :=
  match b.session with
  | some s => if s = "" then "default" else s
  | none => "default"

/-- Embedding of the message normalization, JS expression
`typeof body?.message === "string" ? String(body.message).trim() : ""`. -/
def messageOf (b : PublishBody) : String :=
  match b.message with
  | some s => jsTrim s
  | none => ""

/-- The publish endpoint handler (`POST` of
`app/api/progress/push/route.ts`), for a well-formed JSON body.  `now` is
`Date.now()` at the time of the request.  The result pairs the HTTP response
with the publish call made on the bus: `none` when `getBus().publish` is not
invoked, `some (session, event)` when it is. -/
def POST (now : Nat) (b : PublishBody) :
    PushResponse × Option (String × BusEvent) :=
  if messageOf b = "" ∧ (b.agentId = none ∨ b.agentId = some "") then
    ({ status := 400, ok := false, error := some "Empty message and no agentId" }, none)
  else
    ({ status := 200, ok := true },
      some (sessionOf b,
        { text := if messageOf b = "" then none else some (messageOf b)
          agentId := b.agentId
          status := b.status
          data := b.data
          ts := now }))

/-- One registered bus subscriber: its session key plus a tag telling
subscribers apart. -/
structure Subscriber where
  session : String
  tag : Nat
deriving DecidableEq, Repr

/-- Modelled from the spec: the in-memory progress bus of
`lib/progress-bus.ts` is not among the sources; spec §4.1 states that
`publish(sessionId, event)` delivers the event synchronously to every
subscriber currently registered under `sessionId`, and to no other. -/
def busPublish (subs : List Subscriber) (session : String) (ev : BusEvent) :
    List (Subscriber × BusEvent) :=
  (subs.filter (fun s => decide (s.session = session))).map (fun s => (s, ev))

/-- Events received by subscribers as a result of one publish-endpoint
request: nothing when the endpoint did not publish, one event per subscriber
of the session otherwise. -/
def deliveries (subs : List Subscriber)
    (r : PushResponse × Option (String × BusEvent)) :
    List (Subscriber × BusEvent) :=
  match r.2 with
  | none => []
  | some (sess, ev) => busPublish subs sess ev

/-! ## Static graph (`lib/agents-graph.ts`) -/

/-- The static node list (`const nodes: AgentNode[]`). -/
def nodes : List AgentNode := [
  { id := "voice.run", name := "Voice Run", path := "/api/voice/run",
    methods := [.POST],
    description := some "Orchestrates full campaign: analyze image, cultural cues, image+video generation.",
    group := .orchestration,
    env := some ["NEXT_PUBLIC_BASE_URL"] },
  { id := "demographics.expand", name := "Demographics Expand", path := "/api/demographics/expand",
    methods := [.POST],
    description := some "Expands raw plan text to structured demographics (LLM or heuristic).",
    group := .analysis,
    env := some ["OPENAI_API_KEY", "OPENAI_MODEL"] },
  { id := "cultural.intelligence", name := "Cultural Intelligence", path := "/api/cultural/intelligence",
    methods := [.POST],
    description := some "Generates cultural insights using Qloo + LLM fallback.",
    group := .analysis,
    env := some ["OPENAI_API_KEY", "OPENAI_MODEL"] },
  { id := "vision.analyze", name := "Vision Analyze", path := "/api/vision/analyze",
    methods := [.POST],
    description := some "Extracts structured insights from an image (OpenAI Vision).",
    group := .analysis,
    env := some ["OPENAI_API_KEY", "OPENAI_VISION_MODEL"] },
  { id := "imagen.generate", name := "Imagen Generate", path := "/api/imagen/generate",
    methods := [.POST],
    description := some "Generates an image via Imagen; persists to Neo4j and serves via media/file.",
    group := .generation,
    env := some ["GEMINI_API_KEY", "NEO4J_URI", "NEO4J_USERNAME", "NEO4J_PASSWORD"] },
  { id := "gemini.generate", name := "Gemini Generate", path := "/api/gemini/generate",
    methods := [.POST],
    description := some "Generates image via Gemini; falls back to Imagen; persists to Neo4j.",
    group := .generation,
    env := some ["GEMINI_API_KEY", "NEO4J_URI", "NEO4J_USERNAME", "NEO4J_PASSWORD"] },
  { id := "gemini.edit", name := "Gemini Edit", path := "/api/gemini/edit",
    methods := [.POST],
    description := some "Edits images via Gemini (multipart); persists to Neo4j.",
    group := .generation,
    env := some ["GEMINI_API_KEY", "NEO4J_URI", "NEO4J_USERNAME", "NEO4J_PASSWORD"] },
  { id := "veo.generate", name := "Veo Generate", path := "/api/veo/generate",
    methods := [.POST],
    description := some "Starts a video generation operation (Veo).",
    group := .generation,
    env := some ["GEMINI_API_KEY"] },
  { id := "veo.operation", name := "Veo Operation", path := "/api/veo/operation",
    methods := [.POST],
    description := some "Polls a Veo operation for completion and collects URIs.",
    group := .generation,
    env := some ["GEMINI_API_KEY"] },
  { id := "veo.download", name := "Veo Download", path := "/api/veo/download",
    methods := [.POST],
    description := some "Downloads/streams generated video; optionally saves to Neo4j & disk.",
    group := .generation,
    env := some ["GEMINI_API_KEY", "NEO4J_URI", "NEO4J_USERNAME", "NEO4J_PASSWORD"] },
  { id := "media.index", name := "Media Index", path := "/api/media",
    methods := [.GET, .POST, .DELETE],
    description := some "CRUD for Media nodes in Neo4j (images/videos/tags).",
    group := .media,
    env := some ["NEO4J_URI", "NEO4J_USERNAME", "NEO4J_PASSWORD"] },
  { id := "media.file", name := "Media File", path := "/api/media/file",
    methods := [.GET],
    description := some "Streams bytes for image media by id; redirects videos to saved URL.",
    group := .media,
    env := some ["NEO4J_URI", "NEO4J_USERNAME", "NEO4J_PASSWORD"] },
  { id := "progress.sse", name := "Progress SSE", path := "/api/progress",
    methods := [.GET],
    description := some "Server-sent events stream for long-running tasks.",
    group := .progress },
  { id := "progress.push", name := "Progress Push", path := "/api/progress/push",
    methods := [.POST],
    description := some "Pushes progress messages to SSE clients via in-memory bus.",
    group := .progress }
]

/-- The static edge list (`const edges: AgentEdge[]`). -/
def edges : List AgentEdge := [
  { fromId := "voice.run", toId := "vision.analyze", label := some "analyze image", optional := some true },
  { fromId := "voice.run", toId := "cultural.intelligence", label := some "cultural cues" },
  { fromId := "voice.run", toId := "imagen.generate", label := some "generate image" },
  { fromId := "voice.run", toId := "veo.generate", label := some "generate video" },
  { fromId := "veo.generate", toId := "veo.operation", label := some "poll" },
  { fromId := "veo.operation", toId := "veo.download", label := some "download/save" },
  { fromId := "gemini.generate", toId := "media.file", label := some "serve image" },
  { fromId := "gemini.edit", toId := "media.file", label := some "serve image" },
  { fromId := "imagen.generate", toId := "media.file", label := some "serve image" },
  { fromId := "voice.run", toId := "progress.push", label := some "status events" }
]

/-- Embedding of `getAgentGraph(): AgentGraph` — returns the static graph. -/
def getAgentGraph : AgentGraph := { nodes := nodes, edges := edges }

/-- Embedding of `getAgentList(): AgentNode[]` — a copy of the static node
list. -/
def getAgentList : List AgentNode := nodes

/-! ## Graph query endpoint (`app/api/agents/graph/route.ts`) -/

/-- Outcome of the `getAgentGraph()` call inside the route's `try` block:
either the returned graph, or a thrown exception carrying an optional
message (`e?.message`). -/
inductive GraphFetch where
  | ok (g : AgentGraph)
  | thrown (msg : Option String)
deriving DecidableEq, Repr

/-- Body of the graph route's JSON response. -/
inductive GraphBody where
  | graph (g : AgentGraph)
  | failure (error : String)
deriving DecidableEq, Repr

/-- HTTP response of the graph route. -/
structure GraphResponse where
  status : Nat
  body : GraphBody
deriving DecidableEq, Repr

/-- The graph query endpoint handler (`GET` of
`app/api/agents/graph/route.ts`), as a function of the outcome of its
`getAgentGraph()` call: `NextResponse.json(graph)` on success,
`NextResponse.json({ error: e?.message || "Failed to get graph" },
{ status: 500 })` on a thrown exception. -/
def GET : GraphFetch → GraphResponse
  | .ok g => { status := 200, body := .graph g }
  | .thrown m =>
    { status := 500
      body := .failure (match m with
        | some s => if s = "" then "Failed to get graph" else s
        | none => "Failed to get graph") }

/-! ## Layout engine (`computeLayout` in `app/agents/page.tsx`) -/

/-- A node with its computed coordinates (`PositionedNode = AgentNode & { x; y }`). -/
structure PositionedNode extends AgentNode where
  x : Nat
  y : Nat
deriving DecidableEq, Repr

/-- An edge with its computed endpoint coordinates
(`PositionedEdge = AgentEdge & { x1; y1; x2; y2 }`). -/
structure PositionedEdge extends AgentEdge where
  x1 : Nat
  y1 : Nat
  x2 : Nat
  y2 : Nat
deriving DecidableEq, Repr

/-- Embedding of `type Layout = { positionedNodes; edges }`. -/
structure Layout where
  positionedNodes : List PositionedNode
  edges : List PositionedEdge
deriving DecidableEq, Repr

/-- The fixed lane sequence (`laneOrder`). -/
def laneOrder : List AgentGroup :=
  [.orchestration, .analysis, .generation, .media, .progress]

/-- The fixed horizontal offset of each lane:
`Object.fromEntries(laneOrder.map((g, i) => [g, 120 + i * 260]))`. -/
def laneX : AgentGroup → Nat
  | .orchestration => 120 + 0 * 260
  | .analysis => 120 + 1 * 260
  | .generation => 120 + 2 * 260
  | .media => 120 + 3 * 260
  | .progress => 120 + 4 * 260

/-- The nodes of one group, in input order (the `buckets` construction). -/
def bucket (g : AgentGraph) (gr : AgentGroup) : List AgentNode :=
  g.nodes.filter (fun n => decide (n.group = gr))

/-- Stable insertion of a node into a name-sorted list: the new node goes
after every element whose name precedes it and before the first element it
does not strictly follow. -/
def insertByName (n : AgentNode) : List AgentNode → List AgentNode
  | [] => [n]
  | m :: rest =>
    if nameLe n.name m.name then n :: m :: rest else m :: insertByName n rest

/-- Embedding of `buckets[g].sort((a, b) => a.name.localeCompare(b.name))`:
ECMAScript mandates a stable sort, realized here as stable insertion sort
with the `nameLe` comparator. -/
def sortByName : List AgentNode → List AgentNode
  | [] => []
  | n :: rest => insertByName n (sortByName rest)

/-- Positioning of one lane:
`list.forEach((n, idx) => push({ ...n, x: laneX[g], y: 120 + idx * 160 }))`,
with `idx` carried explicitly. -/
def placeLane (x : Nat) : Nat → List AgentNode → List PositionedNode
  | _, [] => []
  | idx, n :: rest =>
    { toAgentNode := n, x := x, y := 120 + idx * 160 } :: placeLane x (idx + 1) rest

/-- The positioned node list of `computeLayout`: lanes in `laneOrder`, each
bucket sorted by name then placed at its lane offset. -/
def positionedNodesOf (g : AgentGraph) : List PositionedNode :=
  (laneOrder.map (fun gr => placeLane (laneX gr) 0 (sortByName (bucket g gr)))).flatten

/-- Embedding of `function find(id)` of `computeLayout`: the first
positioned node carrying the given id. -/
def findPos (g : AgentGraph) (id : String) : Option PositionedNode :=
  (positionedNodesOf g).find? (fun n => decide (n.id = id))

/-- The layout engine (`computeLayout`): positions every node by lane and
sorted index, then keeps exactly the edges whose two endpoints resolve,
giving them coordinates derived from the resolved node positions. -/
def computeLayout (g : AgentGraph) : Layout :=
  { positionedNodes := positionedNodesOf g
    edges := g.edges.filterMap (fun e =>
      match findPos g e.fromId, findPos g e.toId with
      | some a, some b =>
        some { toAgentEdge := e, x1 := a.x + 200, y1 := a.y + 48, x2 := b.x, y2 := b.y + 48 }
      | _, _ => none) }

/-- The positioned nodes of one lane, used to state per-lane properties. -/
def laneNodes (g : AgentGraph) (gr : AgentGroup) : List PositionedNode :=
  (computeLayout g).positionedNodes.filter (fun p => decide (p.group = gr))

/-! ## Correlation engine (`matchAgentByMessage` in `app/agents/page.tsx`) -/

/-- The lookup keys of one node: `[n.name, n.path, n.id]`. -/
def keysOf (n : AgentNode) : List String := [n.name, n.path, n.id]

/-- Whether some lookup key of the node contains the given substring after
lower-casing (`keys.some((k) => (k || "").toLowerCase().includes(pat))`). -/
def keyHas (n : AgentNode) (pat : String) : Bool :=
  (keysOf n).any (fun k => strIncludes (jsToLower k) pat)

/-- The rule loop of `matchAgentByMessage`, over the node list in input
order; `m` is the already lower-cased message.  Each regular-expression test
of the source is containment of its literal alternatives in `m` (the
patterns contain no operators beyond alternation; `m` is lower-case, so the
`i` flag is containment of the lower-cased alternative). -/
def matchGo (m : String) : List AgentNode → Option String
  | [] => none
  | n :: rest =>
    if keyHas n "voice run" && strIncludes m "voice" then some "voice.run"
    else if keyHas n "vision" && (strIncludes m "analyz" || strIncludes m "image") then
      some "vision.analyze"
    else if keyHas n "cultural" && (strIncludes m "cultural" || strIncludes m "culture") then
      some "cultural.intelligence"
    else if keyHas n "imagen" && (strIncludes m "image" || strIncludes m "imagen") then
      some "imagen.generate"
    else if keyHas n "veo" && (strIncludes m "video" || strIncludes m "veo" ||
        strIncludes m "operation" || strIncludes m "download") then
      some n.id
    else matchGo m rest

/-- The correlation engine (`matchAgentByMessage(graph, message)`). -/
def matchAgentByMessage (g : AgentGraph) (message : String) : Option String :=
  matchGo (jsToLower message) g.nodes

/-! ## Activity decay tracker (`activeIds` state in `app/agents/page.tsx`) -/

/-- The `activeIds` record: node id to last-activity timestamp, in insertion
order, as a JavaScript object literal keyed by id. -/
abbrev ActState := List (String × Nat)

/-- Arrival handling, `setActiveIds((prev) => ({ ...prev, [id]: now }))`: the
timestamp of an existing key is replaced, a new key is appended. -/
def recordActive (s : ActState) (id : String) (now : Nat) : ActState :=
  if s.any (fun p => decide (p.1 = id)) then
    s.map (fun p => if p.1 = id then (id, now) else p)
  else s ++ [(id, now)]

/-- One run of the decay sweep (`setInterval` body): keep exactly the
entries with `now - v < 4000`. -/
def sweepActive (s : ActState) (now : Nat) : ActState :=
  s.filter (fun p => decide (now - p.2 < 4000))

/-- The sweeps that have run, applied in order of their times. -/
def runSweeps (s : ActState) (ts : List Nat) : ActState :=
  ts.foldl sweepActive s

/-- Whether a node id currently has an activity record
(`Boolean(activeIds[n.id])`; recorded timestamps are `Date.now()` values,
hence nonzero). -/
def isActive (s : ActState) (id : String) : Bool :=
  s.any (fun p => decide (p.1 = id))


/-! ## Concrete test inputs used by witnesses and counterexamples -/

/-- An orchestration node used in concrete layout runs. -/
def nodeA : AgentNode :=
  { id := "a", name := "A", path := "/a", methods := [], group := .orchestration }

/-- An analysis node used in concrete layout runs. -/
def nodeB : AgentNode :=
  { id := "b", name := "B", path := "/b", methods := [], group := .analysis }

/-- A two-node graph with one resolvable edge `a → b` and one dangling edge
`a → ghost`. -/
def cTestGraph : AgentGraph :=
  { nodes := [nodeA, nodeB]
    edges := [{ fromId := "a", toId := "b" }, { fromId := "a", toId := "ghost" }] }

/-- Two distinct media nodes sharing the display name "Same". -/
def dupN1 : AgentNode :=
  { id := "p1", name := "Same", path := "/1", methods := [], group := .media }

/-- Second node of the duplicate-name pair. -/
def dupN2 : AgentNode :=
  { id := "p2", name := "Same", path := "/2", methods := [], group := .media }

/-- A graph whose media lane holds two nodes with equal display names, to
exercise sort stability. -/
def dupGraph : AgentGraph := { nodes := [dupN1, dupN2], edges := [] }

/-- A graph containing the Veo Generate node of the static graph, preceded
by the Veo Operation node. -/
def veoSwapGraph : AgentGraph :=
  { nodes := [
      { id := "veo.operation", name := "Veo Operation", path := "/api/veo/operation",
        methods := [.POST],
        description := some "Polls a Veo operation for completion and collects URIs.",
        group := .generation, env := some ["GEMINI_API_KEY"] },
      { id := "veo.generate", name := "Veo Generate", path := "/api/veo/generate",
        methods := [.POST],
        description := some "Starts a video generation operation (Veo).",
        group := .generation, env := some ["GEMINI_API_KEY"] }]
    edges := [] }

/-- A single-node graph whose node name contains "voice run" but whose id is
foreign to the correlation table. -/
def strayVoiceGraph : AgentGraph :=
  { nodes := [{ id := "x1", name := "voice runner", path := "/x1", methods := [], group := .progress }]
    edges := [] }

/-- A single-node graph whose node name contains "vision". -/
def strayVisionGraph : AgentGraph :=
  { nodes := [{ id := "x2", name := "vision widget", path := "/x2", methods := [], group := .progress }]
    edges := [] }

/-- A single-node graph whose node name contains "cultural". -/
def strayCulturalGraph : AgentGraph :=
  { nodes := [{ id := "x3", name := "cultural writer", path := "/x3", methods := [], group := .progress }]
    edges := [] }

/-- A single-node graph whose node name contains "imagen". -/
def strayImagenGraph : AgentGraph :=
  { nodes := [{ id := "x4", name := "imagen worker", path := "/x4", methods := [], group := .progress }]
    edges := [] }

/-! ## Order properties of the name comparator -/

theorem lexLe_refl : ∀ l : List Char, lexLe l l = true
  | [] => rfl
  | _ :: as => by simp [lexLe, lexLe_refl as]

theorem lexLe_total : ∀ l m : List Char, lexLe l m = true ∨ lexLe m l = true
  | [], _ => Or.inl rfl
  | _ :: _, [] => Or.inr rfl
  | a :: as, b :: bs => by
    simp only [lexLe]
    rcases Nat.lt_trichotomy a.toNat b.toNat with h | h | h
    · left; simp [h]
    · have h₁ : ¬ a.toNat < b.toNat := by omega
      have h₂ : ¬ b.toNat < a.toNat := by omega
      rcases lexLe_total as bs with ih | ih <;> simp [h₁, h₂, ih]
    · right; simp [h]

theorem lexLe_trans :
    ∀ l m k : List Char, lexLe l m = true → lexLe m k = true → lexLe l k = true
  | [], _, _, _, _ => rfl
  | _ :: _, [], _, h, _ => by simp [lexLe] at h
  | _ :: _, _ :: _, [], _, h => by simp [lexLe] at h
  | a :: as, b :: bs, c :: cs, h1, h2 => by
    simp only [lexLe] at h1 h2 ⊢
    rcases Nat.lt_trichotomy a.toNat b.toNat with hab | hab | hab
    · rcases Nat.lt_trichotomy b.toNat c.toNat with hbc | hbc | hbc
      · simp [show a.toNat < c.toNat by omega]
      · simp [show a.toNat < c.toNat by omega]
      · simp [show ¬ b.toNat < c.toNat by omega, hbc] at h2
    · rcases Nat.lt_trichotomy b.toNat c.toNat with hbc | hbc | hbc
      · simp [show a.toNat < c.toNat by omega]
      · rw [if_neg (show ¬ a.toNat < b.toNat by omega),
          if_neg (show ¬ b.toNat < a.toNat by omega)] at h1
        rw [if_neg (show ¬ b.toNat < c.toNat by omega),
          if_neg (show ¬ c.toNat < b.toNat by omega)] at h2
        rw [if_neg (show ¬ a.toNat < c.toNat by omega),
          if_neg (show ¬ c.toNat < a.toNat by omega)]
        exact lexLe_trans as bs cs h1 h2
      · simp [show ¬ b.toNat < c.toNat by omega, hbc] at h2
    · simp [show ¬ a.toNat < b.toNat by omega, hab] at h1

theorem nameLe_refl (a : String) : nameLe a a = true := lexLe_refl a.data

theorem nameLe_total (a b : String) : nameLe a b = true ∨ nameLe b a = true :=
  lexLe_total a.data b.data

theorem nameLe_trans {a b c : String} (h1 : nameLe a b = true)
    (h2 : nameLe b c = true) : nameLe a c = true :=
  lexLe_trans a.data b.data c.data h1 h2

/-! ## Activity decay tracker lemmas -/

theorem mem_recordActive (s : ActState) (id : String) (now : Nat) :
    (id, now) ∈ recordActive s id now := by
  unfold recordActive
  split
  · rename_i h
    obtain ⟨p, hp, hpe⟩ := List.any_eq_true.mp h
    have h1 := List.mem_map_of_mem
      (fun p : String × Nat => if p.1 = id then (id, now) else p) hp
    have h2 : (if p.1 = id then (id, now) else p) ∈
        List.map (fun p : String × Nat => if p.1 = id then (id, now) else p) s := h1
    rw [if_pos (of_decide_eq_true hpe)] at h2
    exact h2
  · exact List.mem_append_right _ (List.mem_singleton.mpr rfl)

theorem recordActive_key (s : ActState) (id : String) (now : Nat) :
    ∀ p ∈ recordActive s id now, p.1 = id → p.2 = now := by
  unfold recordActive
  split
  · intro p hp hid
    obtain ⟨q, hq, hqe⟩ := List.mem_map.mp hp
    by_cases hq1 : q.1 = id
    · rw [if_pos hq1] at hqe; rw [← hqe]
    · rw [if_neg hq1] at hqe; rw [hqe] at hq1; exact absurd hid hq1
  · rename_i h
    intro p hp hid
    rcases List.mem_append.mp hp with hs | hnew
    · exact absurd (List.any_eq_true.mpr ⟨p, hs, decide_eq_true hid⟩) h
    · rw [List.mem_singleton.mp hnew]

theorem sweep_key_pres {s : ActState} {id : String} {T : Nat}
    (h : ∀ p ∈ s, p.1 = id → p.2 = T) (t : Nat) :
    ∀ p ∈ sweepActive s t, p.1 = id → p.2 = T :=
  fun p hp => h p (List.mem_of_mem_filter hp)

theorem sweep_no_key {s : ActState} {id : String}
    (h : ∀ p ∈ s, p.1 ≠ id) (t : Nat) : ∀ p ∈ sweepActive s t, p.1 ≠ id :=
  fun p hp => h p (List.mem_of_mem_filter hp)

theorem sweep_kill {s : ActState} {id : String} {T t : Nat}
    (hkey : ∀ p ∈ s, p.1 = id → p.2 = T) (ht : T + 4000 ≤ t) :
    ∀ p ∈ sweepActive s t, p.1 ≠ id := by
  intro p hp hpid
  have h1 := List.mem_filter.mp hp
  have h2 := hkey p h1.1 hpid
  have h3 : t - p.2 < 4000 := of_decide_eq_true h1.2
  omega

theorem runSweeps_no_key {id : String} :
    ∀ (ts : List Nat) (s : ActState), (∀ p ∈ s, p.1 ≠ id) →
      isActive (runSweeps s ts) id = false
  | [], s, h => by
    simp only [runSweeps, List.foldl_nil, isActive]
    exact List.any_eq_false.mpr (fun p hp => by simpa using h p hp)
  | t :: ts, s, h => by
    simp only [runSweeps, List.foldl_cons]
    exact runSweeps_no_key ts (sweepActive s t) (sweep_no_key h t)

theorem active_of_mem {s : ActState} {id : String} {T : Nat} (h : (id, T) ∈ s) :
    isActive s id = true :=
  List.any_eq_true.mpr ⟨(id, T), h, by simp⟩

theorem runSweeps_keeps {id : String} {T : Nat} :
    ∀ (ts : List Nat) (s : ActState), (id, T) ∈ s → (∀ t ∈ ts, t < T + 4000) →
      (id, T) ∈ runSweeps s ts
  | [], _, h, _ => h
  | t :: ts, s, h, hts => by
    simp only [runSweeps, List.foldl_cons]
    refine runSweeps_keeps ts _ ?_ (fun u hu => hts u (by simp [hu]))
    refine List.mem_filter.mpr ⟨h, decide_eq_true ?_⟩
    have := hts t (by simp)
    omega

theorem runSweeps_purges {id : String} {T : Nat} :
    ∀ (ts : List Nat) (s : ActState), (∀ p ∈ s, p.1 = id → p.2 = T) →
      ∀ t0 ∈ ts, T + 4000 ≤ t0 → isActive (runSweeps s ts) id = false
  | [], _, _, t0, h, _ => by simp at h
  | t :: ts, s, hkey, t0, ht0, hge => by
    simp only [runSweeps, List.foldl_cons]
    rcases List.mem_cons.mp ht0 with rfl | hmem
    · exact runSweeps_no_key ts _ (sweep_kill hkey hge)
    · exact runSweeps_purges ts (sweepActive s t) (sweep_key_pres hkey t) t0 hmem hge

/-! ## Claims about the activity decay tracker -/

/-- C2 counterexample: for an arrival at time T = 500 with the 1000 ms
periodic sweep having run at 1000, 2000, 3000 and 4000 ms, a query at time
4500 = T + 4000 still finds the record present: the sweep at 4000 saw age
3500 < 4000 and the next sweep (5000) has not run yet.  This refutes the
claim that the record is purged for every query at or after T + 4000 under
the periodic sweep. -/
theorem C2_decay_counterexample :
    isActive (runSweeps (recordActive [] "veo.generate" 500)
      [1000, 2000, 3000, 4000]) "veo.generate" = true
    ∧ 500 + 4000 ≤ 4500 := by decide

/-- C2 (amended): after an arrival for node `id` at time `T` (with no later
arrival for `id`), the record for `id` is present as long as every sweep
that has run is earlier than `T + 4000`; it is purged — the entry removed
from the record set — by the first sweep at or after `T + 4000`, hence
absent for every query from that sweep on; with the periodic schedule
`s0 + 1000*k` it is absent once the schedule reaches `T + 4000`; and a new
arrival at `T2` replaces the timestamp, restarting the window from `T2`. -/
theorem C2_decay_window (s : ActState) (id : String) (T : Nat) (ts : List Nat) :
    ((∀ t ∈ ts, t < T + 4000) →
      isActive (runSweeps (recordActive s id T) ts) id = true)
    ∧ (∀ t0 ∈ ts, T + 4000 ≤ t0 →
      isActive (runSweeps (recordActive s id T) ts) id = false)
    ∧ (∀ s0 m, T + 4000 ≤ s0 + 1000 * m →
      isActive (runSweeps (recordActive s id T)
        ((List.range (m + 1)).map (fun k => s0 + 1000 * k))) id = false)
    ∧ (∀ T2 ts2, (∀ t ∈ ts2, t < T2 + 4000) →
      isActive (runSweeps (recordActive (recordActive s id T) id T2) ts2) id = true) := by
  refine ⟨?_, ?_, ?_, ?_⟩
  · intro h
    exact active_of_mem (runSweeps_keeps ts _ (mem_recordActive s id T) h)
  · intro t0 ht0 hge
    exact runSweeps_purges ts _ (recordActive_key s id T) t0 ht0 hge
  · intro s0 m h
    refine runSweeps_purges _ _ (recordActive_key s id T) (s0 + 1000 * m) ?_ h
    exact List.mem_map_of_mem _ (List.mem_range.mpr (Nat.lt_succ_self m))
  · intro T2 ts2 h
    exact active_of_mem (runSweeps_keeps ts2 _ (mem_recordActive _ id T2) h)

/-- C2 witness: arrival at 0; with sweeps at 1000, 2000, 3000 the record is
still present, and once the sweep at 4000 has run it is purged. -/
theorem C2_decay_window_witness :
    isActive (runSweeps (recordActive [] "veo.generate" 0)
      [1000, 2000, 3000]) "veo.generate" = true
    ∧ isActive (runSweeps (recordActive [] "veo.generate" 0)
      [1000, 2000, 3000, 4000]) "veo.generate" = false :=
  ⟨(C2_decay_window [] "veo.generate" 0 [1000, 2000, 3000]).1 (by decide),
   (C2_decay_window [] "veo.generate" 0 [1000, 2000, 3000, 4000]).2.1
     4000 (by decide) (by decide)⟩

/-! ## Claims about the publish endpoint -/

/-- C1: a publish request whose message is absent or trims to empty and
whose agentId is absent or empty is answered with status 400, `ok: false`,
no publish call is made and no subscriber receives anything; a request
where the trimmed message or the agentId is a non-empty string is answered
with status 200 and `ok: true`, and exactly one event is published to the
request's session.  The bus itself (`lib/progress-bus.ts`) is modelled from
the spec; the validation and the decision to publish are the source of
`app/api/progress/push/route.ts`. -/
theorem C1_publish_validation (now : Nat) (b : PublishBody) (subs : List Subscriber) :
    (messageOf b = "" ∧ (b.agentId = none ∨ b.agentId = some "") →
      (POST now b).1.status = 400 ∧ (POST now b).1.ok = false ∧
        (POST now b).2 = none ∧ deliveries subs (POST now b) = [])
    ∧ ((messageOf b ≠ "" ∨ ∃ a, b.agentId = some a ∧ a ≠ "") →
      (POST now b).1.status = 200 ∧ (POST now b).1.ok = true ∧
        ∃ ev, (POST now b).2 = some (sessionOf b, ev) ∧ ev.ts = now) := by
  constructor
  · intro h
    simp only [POST]
    rw [if_pos h]
    exact ⟨rfl, rfl, rfl, rfl⟩
  · intro h
    have hneg : ¬ (messageOf b = "" ∧ (b.agentId = none ∨ b.agentId = some "")) := by
      rcases h with h | ⟨a, ha, hne⟩
      · exact fun hc => h hc.1
      · rintro ⟨-, hc | hc⟩
        · rw [ha] at hc; cases hc
        · rw [ha] at hc; exact hne (Option.some.inj hc)
    simp only [POST]
    rw [if_neg hneg]
    exact ⟨rfl, rfl, _, rfl, rfl⟩

/-- C1 witness: a request with an empty agentId and no message is rejected
with 400 and delivers nothing to a registered subscriber; a request whose
message trims to "hi" is acknowledged with 200 and publishes one event. -/
theorem C1_publish_validation_witness :
    ((POST 7 { agentId := some "" }).1.status = 400
      ∧ (POST 7 { agentId := some "" }).1.ok = false
      ∧ (POST 7 { agentId := some "" }).2 = none
      ∧ deliveries [⟨"default", 0⟩] (POST 7 { agentId := some "" }) = [])
    ∧ ((POST 7 { message := some "  hi  " }).1.status = 200
      ∧ (POST 7 { message := some "  hi  " }).1.ok = true
      ∧ ∃ ev, (POST 7 { message := some "  hi  " }).2 =
          some (sessionOf { message := some "  hi  " }, ev) ∧ ev.ts = 7) :=
  ⟨(C1_publish_validation 7 { agentId := some "" } [⟨"default", 0⟩]).1
      ⟨rfl, Or.inr rfl⟩,
   (C1_publish_validation 7 { message := some "  hi  " } [⟨"default", 0⟩]).2
      (Or.inl (by decide))⟩

/-! ## Claims about the graph query endpoint -/

/-- C7: when `getAgentGraph()` throws, the graph route answers with status
500 and an error payload carrying a message field; when it returns, the
route answers with status 200 and the complete static node/edge set as a
single `{ nodes, edges }` payload. -/
theorem C7_graph_route (m : Option String) :
    (GET (.thrown m)).status = 500
    ∧ (∃ s, (GET (.thrown m)).body = .failure s)
    ∧ GET (.ok getAgentGraph) =
        { status := 200, body := .graph { nodes := nodes, edges := edges } } :=
  ⟨rfl, ⟨_, rfl⟩, rfl⟩

/-! ## Claims about the correlation engine -/

/-- C8: the correlation engine is deterministic — two calls of
`matchAgentByMessage` on the same graph and message text return the same
result.  In this embedding `matchAgentByMessage` is a function of the graph
and the message alone (the source reads no other state: its regular
expressions are flag-`g`-free and stateless), so determinism is
definitional. -/
theorem C8_correlation_deterministic (g : AgentGraph) (m : String)
    (r1 r2 : Option String) (h1 : r1 = matchAgentByMessage g m)
    (h2 : r2 = matchAgentByMessage g m) : r1 = r2 :=
  h1.trans h2.symm

/-- C8 witness: two runs on the static graph and a fixed message agree. -/
theorem C8_correlation_deterministic_witness :
    matchAgentByMessage getAgentGraph "Generating video with veo, please wait"
      = matchAgentByMessage getAgentGraph "Generating video with veo, please wait" :=
  C8_correlation_deterministic getAgentGraph
    "Generating video with veo, please wait" _ _ rfl rfl

/-! ## Claims about the static graph -/

/-- C9: in the static graph every edge's `from` and `to` id equals the id of
some node of the node list, and the layout engine run on this graph keeps
every edge (same count, same endpoint ids in the same order). -/
theorem C9_static_graph_closed :
    edges.all (fun e => nodes.any (fun n => decide (n.id = e.fromId)) &&
        nodes.any (fun n => decide (n.id = e.toId))) = true
    ∧ (computeLayout getAgentGraph).edges.length = getAgentGraph.edges.length
    ∧ (computeLayout getAgentGraph).edges.map (fun pe => (pe.fromId, pe.toId))
      = getAgentGraph.edges.map (fun e => (e.fromId, e.toId)) := by decide

/-- C10: the correlation engine can return an id foreign to the graph: for
each of the four fixed-id rules there is a single-node graph (whose only id
is `x1` … `x4`) and a message for which `matchAgentByMessage` returns the
rule's fixed id, which belongs to no node of that graph. -/
theorem C10_correlation_foreign_ids :
    (matchAgentByMessage strayVoiceGraph "voice starting" = some "voice.run"
      ∧ strayVoiceGraph.nodes.all (fun n => decide (n.id ≠ "voice.run")) = true)
    ∧ (matchAgentByMessage strayVisionGraph "analyzing now" = some "vision.analyze"
      ∧ strayVisionGraph.nodes.all (fun n => decide (n.id ≠ "vision.analyze")) = true)
    ∧ (matchAgentByMessage strayCulturalGraph "culture notes" = some "cultural.intelligence"
      ∧ strayCulturalGraph.nodes.all (fun n => decide (n.id ≠ "cultural.intelligence")) = true)
    ∧ (matchAgentByMessage strayImagenGraph "imagen job done" = some "imagen.generate"
      ∧ strayImagenGraph.nodes.all (fun n => decide (n.id ≠ "imagen.generate")) = true) := by
  decide

/-! ## Layout engine lemmas -/

theorem mem_placeLane {x i : Nat} {l : List AgentNode} {p : PositionedNode}
    (h : p ∈ placeLane x i l) : p.x = x ∧ p.toAgentNode ∈ l := by
  induction l generalizing i with
  | nil => simp [placeLane] at h
  | cons n rest ih =>
    simp only [placeLane, List.mem_cons] at h
    rcases h with rfl | h
    · exact ⟨rfl, List.mem_cons_self _ _⟩
    · obtain ⟨h1, h2⟩ := ih h
      exact ⟨h1, List.mem_cons_of_mem _ h2⟩

theorem placeLane_of_mem {x i : Nat} {l : List AgentNode} {n : AgentNode}
    (h : n ∈ l) : ∃ p ∈ placeLane x i l, p.toAgentNode = n := by
  induction l generalizing i with
  | nil => cases h
  | cons m rest ih =>
    rcases List.mem_cons.mp h with rfl | h2
    · exact ⟨_, List.mem_cons_self _ _, rfl⟩
    · obtain ⟨p, hp, he⟩ := ih (i := i + 1) h2
      exact ⟨p, List.mem_cons_of_mem _ hp, he⟩

theorem placeLane_map_node (x : Nat) :
    ∀ (i : Nat) (l : List AgentNode),
      (placeLane x i l).map (fun p => p.toAgentNode) = l
  | _, [] => rfl
  | i, n :: rest => by
    simp [placeLane, placeLane_map_node x (i + 1) rest]

theorem placeLane_length (x : Nat) :
    ∀ (i : Nat) (l : List AgentNode), (placeLane x i l).length = l.length
  | _, [] => rfl
  | i, n :: rest => by simp [placeLane, placeLane_length x (i + 1) rest]

theorem placeLane_y (x : Nat) :
    ∀ (i j : Nat) (l : List AgentNode), j < l.length →
      ((placeLane x i l).map (fun p => p.y))[j]? = some (120 + (i + j) * 160) := by
  intro i j l
  induction l generalizing i j with
  | nil => intro h; simp at h
  | cons n rest ih =>
    intro h
    cases j with
    | zero => simp [placeLane]
    | succ j =>
      simp only [placeLane, List.map_cons, List.getElem?_cons_succ]
      rw [ih (i + 1) j (by simpa using Nat.lt_of_succ_lt_succ h)]
      congr 1
      omega

theorem mem_bucket {g : AgentGraph} {gr : AgentGroup} {n : AgentNode} :
    n ∈ bucket g gr ↔ n ∈ g.nodes ∧ n.group = gr := by
  simp [bucket]

theorem mem_insertByName {a n : AgentNode} :
    ∀ {l : List AgentNode}, a ∈ insertByName n l ↔ a = n ∨ a ∈ l := by
  intro l
  induction l with
  | nil => simp [insertByName]
  | cons m rest ih =>
    simp only [insertByName]
    split
    · simp [List.mem_cons]
    · simp only [List.mem_cons, ih]
      tauto

theorem mem_sortByName {a : AgentNode} :
    ∀ {l : List AgentNode}, a ∈ sortByName l ↔ a ∈ l := by
  intro l
  induction l with
  | nil => simp [sortByName]
  | cons n rest ih => simp [sortByName, mem_insertByName, ih]

theorem sortByName_group (g : AgentGraph) (gr : AgentGroup) :
    ∀ n ∈ sortByName (bucket g gr), n.group = gr :=
  fun _ hn => (mem_bucket.mp (mem_sortByName.mp hn)).2

theorem placeLane_filter {x i : Nat} {l : List AgentNode} {gr gr' : AgentGroup}
    (h : ∀ n ∈ l, n.group = gr') :
    (placeLane x i l).filter (fun p => decide (p.group = gr)) =
      if gr' = gr then placeLane x i l else [] := by
  induction l generalizing i with
  | nil => simp [placeLane]
  | cons n rest ih =>
    have hg : n.group = gr' := h n (List.mem_cons_self _ _)
    have hrest := ih (i := i + 1) (fun m hm => h m (List.mem_cons_of_mem _ hm))
    by_cases hc : gr' = gr
    · subst hc
      simp only [placeLane, List.filter_cons, hrest, if_pos rfl]
      simp [hg]
    · simp only [placeLane, List.filter_cons, hrest, if_neg hc]
      simp [hg, hc]

theorem laneNodes_eq (g : AgentGraph) (gr : AgentGroup) :
    laneNodes g gr = placeLane (laneX gr) 0 (sortByName (bucket g gr)) := by
  have hseg : ∀ gr' : AgentGroup,
      (placeLane (laneX gr') 0 (sortByName (bucket g gr'))).filter
        (fun p => decide (p.group = gr)) =
      if gr' = gr then placeLane (laneX gr') 0 (sortByName (bucket g gr')) else [] :=
    fun gr' => placeLane_filter (sortByName_group g gr')
  have hpos : positionedNodesOf g =
      placeLane (laneX .orchestration) 0 (sortByName (bucket g .orchestration)) ++
      (placeLane (laneX .analysis) 0 (sortByName (bucket g .analysis)) ++
      (placeLane (laneX .generation) 0 (sortByName (bucket g .generation)) ++
      (placeLane (laneX .media) 0 (sortByName (bucket g .media)) ++
      (placeLane (laneX .progress) 0 (sortByName (bucket g .progress)) ++ [])))) := rfl
  show (positionedNodesOf g).filter (fun p => decide (p.group = gr)) = _
  rw [hpos]
  simp only [List.filter_append, List.filter_nil]
  rw [hseg .orchestration, hseg .analysis, hseg .generation, hseg .media, hseg .progress]
  cases gr <;> simp

theorem laneNodes_map_node (g : AgentGraph) (gr : AgentGroup) :
    (laneNodes g gr).map (fun p => p.toAgentNode) = sortByName (bucket g gr) := by
  rw [laneNodes_eq]
  exact placeLane_map_node _ 0 _

theorem insertByName_sorted {n : AgentNode} {l : List AgentNode}
    (h : l.Pairwise (fun a b => nameLe a.name b.name = true)) :
    (insertByName n l).Pairwise (fun a b => nameLe a.name b.name = true) := by
  induction l with
  | nil => simp [insertByName]
  | cons m rest ih =>
    rw [List.pairwise_cons] at h
    simp only [insertByName]
    split
    · rename_i hc
      rw [List.pairwise_cons]
      refine ⟨?_, List.pairwise_cons.mpr h⟩
      intro z hz
      rcases List.mem_cons.mp hz with rfl | hz2
      · exact hc
      · exact nameLe_trans hc (h.1 z hz2)
    · rename_i hc
      rw [List.pairwise_cons]
      refine ⟨?_, ih h.2⟩
      intro z hz
      rcases mem_insertByName.mp hz with rfl | hz2
      · rcases nameLe_total z.name m.name with h1 | h1
        · exact absurd h1 (by simpa using hc)
        · exact h1
      · exact h.1 z hz2

theorem sortByName_sorted :
    ∀ l : List AgentNode,
      (sortByName l).Pairwise (fun a b => nameLe a.name b.name = true)
  | [] => List.Pairwise.nil
  | _ :: rest => insertByName_sorted (sortByName_sorted rest)

theorem self_sublist_insertByName (n : AgentNode) :
    ∀ l : List AgentNode, List.Sublist l (insertByName n l)
  | [] => List.nil_sublist _
  | m :: rest => by
    simp only [insertByName]
    split
    · exact List.Sublist.cons _ (List.Sublist.refl _)
    · exact List.Sublist.cons₂ _ (self_sublist_insertByName n rest)

theorem sublist_insertByName {s l : List AgentNode} {n : AgentNode}
    (h : List.Sublist s l) : List.Sublist s (insertByName n l) :=
  h.trans (self_sublist_insertByName n l)

theorem pair_sublist_insertByName {x y : AgentNode}
    (hxy : nameLe x.name y.name = true) :
    ∀ {s : List AgentNode}, y ∈ s → List.Sublist [x, y] (insertByName x s) := by
  intro s hy
  induction s with
  | nil => cases hy
  | cons m rest ih =>
    simp only [insertByName]
    split
    · exact List.Sublist.cons₂ _ (List.singleton_sublist.mpr hy)
    · rename_i hc
      rcases List.mem_cons.mp hy with rfl | hy2
      · exact absurd hxy (by simpa using hc)
      · exact List.Sublist.cons _ (ih hy2)

theorem sortByName_stable {x y : AgentNode}
    (hxy : nameLe x.name y.name = true) :
    ∀ {l : List AgentNode}, List.Sublist [x, y] l →
      List.Sublist [x, y] (sortByName l) := by
  intro l h
  induction l with
  | nil => simp at h
  | cons z rest ih =>
    cases h with
    | cons _ h2 => exact sublist_insertByName (ih h2)
    | cons₂ _ h2 =>
      exact pair_sublist_insertByName hxy
        (mem_sortByName.mpr (List.singleton_sublist.mp h2))

theorem mem_positionedNodesOf {g : AgentGraph} {p : PositionedNode}
    (h : p ∈ positionedNodesOf g) : p.toAgentNode ∈ g.nodes := by
  simp only [positionedNodesOf, List.mem_flatten, List.mem_map] at h
  obtain ⟨seg, ⟨gr, hgr, rfl⟩, hp⟩ := h
  exact (mem_bucket.mp (mem_sortByName.mp (mem_placeLane hp).2)).1

theorem positionedNodesOf_of_mem {g : AgentGraph} {n : AgentNode}
    (h : n ∈ g.nodes) : ∃ p ∈ positionedNodesOf g, p.toAgentNode = n := by
  have hs : n ∈ sortByName (bucket g n.group) :=
    mem_sortByName.mpr (mem_bucket.mpr ⟨h, rfl⟩)
  obtain ⟨p, hp, he⟩ := placeLane_of_mem (x := laneX n.group) (i := 0) hs
  refine ⟨p, ?_, he⟩
  simp only [positionedNodesOf, List.mem_flatten, List.mem_map]
  exact ⟨placeLane (laneX n.group) 0 (sortByName (bucket g n.group)),
    ⟨n.group, by cases n.group <;> simp [laneOrder], rfl⟩, hp⟩

theorem posX_lane {g : AgentGraph} {p : PositionedNode}
    (h : p ∈ positionedNodesOf g) : p.x = laneX p.group := by
  simp only [positionedNodesOf, List.mem_flatten, List.mem_map] at h
  obtain ⟨seg, ⟨gr, hgr, rfl⟩, hp⟩ := h
  obtain ⟨hx, hmem⟩ := mem_placeLane hp
  rw [hx, show p.group = gr from (mem_bucket.mp (mem_sortByName.mp hmem)).2]

theorem findPos_mem {g : AgentGraph} {id : String} {p : PositionedNode}
    (h : findPos g id = some p) : p ∈ positionedNodesOf g :=
  List.mem_of_find?_eq_some h

theorem findPos_isSome (g : AgentGraph) (id : String) :
    (findPos g id).isSome = g.nodes.any (fun n => decide (n.id = id)) := by
  by_cases h : ∃ n ∈ g.nodes, n.id = id
  · obtain ⟨n, hn, hid⟩ := h
    have h1 : (findPos g id).isSome = true := by
      rw [findPos, List.find?_isSome]
      obtain ⟨p, hp, he⟩ := positionedNodesOf_of_mem hn
      refine ⟨p, hp, decide_eq_true ?_⟩
      rw [← he] at hid
      exact hid
    rw [h1, eq_comm, List.any_eq_true]
    exact ⟨n, hn, decide_eq_true hid⟩
  · have h1 : findPos g id = none := by
      rw [findPos, List.find?_eq_none]
      intro p hp hdec
      exact h ⟨p.toAgentNode, mem_positionedNodesOf hp, of_decide_eq_true hdec⟩
    rw [h1, eq_comm]
    rw [show (none : Option PositionedNode).isSome = false from rfl]
    rw [List.any_eq_false]
    intro n hn
    simp only [decide_eq_true_eq]
    exact fun hid => h ⟨n, hn, hid⟩

/-! ## Claims about the layout engine -/

/-- C4: edges whose endpoints resolve among the positioned nodes are kept
with coordinates derived from the resolved positions, and an edge with a
dangling endpoint is omitted — every output edge's endpoints resolve, and
an id resolves exactly when some node of the graph carries it (so the
layout engine never fails on a dangling reference; it is a total
function). -/
theorem C4_dangling_edges (g : AgentGraph) :
    (∀ id : String,
      (findPos g id).isSome = g.nodes.any (fun n => decide (n.id = id)))
    ∧ (∀ pe ∈ (computeLayout g).edges,
        ∃ a b, findPos g pe.fromId = some a ∧ findPos g pe.toId = some b ∧
          pe.x1 = a.x + 200 ∧ pe.y1 = a.y + 48 ∧ pe.x2 = b.x ∧ pe.y2 = b.y + 48)
    ∧ (∀ e ∈ g.edges, ∀ a b,
        findPos g e.fromId = some a → findPos g e.toId = some b →
        ({ toAgentEdge := e, x1 := a.x + 200, y1 := a.y + 48,
            x2 := b.x, y2 := b.y + 48 } : PositionedEdge)
          ∈ (computeLayout g).edges) := by
  refine ⟨findPos_isSome g, ?_, ?_⟩
  · intro pe hpe
    obtain ⟨e, he, hf⟩ := List.mem_filterMap.mp hpe
    rcases hfa : findPos g e.fromId with _ | a <;>
      rcases hfb : findPos g e.toId with _ | b <;>
      rw [hfa, hfb] at hf
    · cases hf
    · cases hf
    · cases hf
    · obtain rfl := Option.some.inj hf
      exact ⟨a, b, hfa, hfb, rfl, rfl, rfl, rfl⟩
  · intro e he a b hfa hfb
    refine List.mem_filterMap.mpr ⟨e, he, ?_⟩
    rw [hfa, hfb]

/-- C4 witness: on the two-node graph with one dangling edge, the resolvable
edge `a → b` is present with coordinates derived from the positions of its
endpoints. -/
theorem C4_dangling_edges_witness :
    ({ toAgentEdge := { fromId := "a", toId := "b" }, x1 := 320, y1 := 168,
        x2 := 380, y2 := 168 } : PositionedEdge)
      ∈ (computeLayout cTestGraph).edges :=
  (C4_dangling_edges cTestGraph).2.2 { fromId := "a", toId := "b" } (by decide)
    ⟨nodeA, 120, 120⟩ ⟨nodeB, 380, 120⟩ (by decide) (by decide)

/-- C5: within each lane the layout engine orders nodes by display name
under the embedded `localeCompare` comparator, ties keeping original input
order (stable sort); each node's vertical offset is `120 + i * 160` for its
sorted index `i`, strictly increasing with uniform spacing, so no two nodes
of the same lane share a vertical offset. -/
theorem C5_lane_sorting (g : AgentGraph) (gr : AgentGroup) :
    ((laneNodes g gr).map (fun p => p.name)).Pairwise (fun a b => nameLe a b = true)
    ∧ (∀ x y : AgentNode, List.Sublist [x, y] (bucket g gr) → x.name = y.name →
        List.Sublist [x, y] ((laneNodes g gr).map (fun p => p.toAgentNode)))
    ∧ (∀ i, i < (laneNodes g gr).length →
        ((laneNodes g gr).map (fun p => p.y))[i]? = some (120 + i * 160))
    ∧ (∀ i j, i < j → j < (laneNodes g gr).length →
        ∀ yi yj, ((laneNodes g gr).map (fun p => p.y))[i]? = some yi →
          ((laneNodes g gr).map (fun p => p.y))[j]? = some yj → yi < yj) := by
  have hlane := laneNodes_eq g gr
  refine ⟨?_, ?_, ?_, ?_⟩
  · have h1 : (laneNodes g gr).map (fun p => p.name) =
        (sortByName (bucket g gr)).map (fun n => n.name) := by
      rw [← laneNodes_map_node g gr, List.map_map]
      rfl
    rw [h1, List.pairwise_map]
    exact sortByName_sorted _
  · intro x y hsub hname
    rw [laneNodes_map_node g gr]
    exact sortByName_stable (by rw [hname]; exact nameLe_refl _) hsub
  · intro i hi
    rw [hlane] at hi ⊢
    rw [placeLane_length] at hi
    have h2 := placeLane_y (laneX gr) 0 i _ hi
    simpa using h2
  · intro i j hij hj yi yj hyi hyj
    have hi : i < (laneNodes g gr).length := lt_trans hij hj
    rw [hlane] at hi hj hyi hyj
    rw [placeLane_length] at hi hj
    rw [placeLane_y (laneX gr) 0 i _ hi] at hyi
    rw [placeLane_y (laneX gr) 0 j _ hj] at hyj
    have e1 := Option.some.inj hyi
    have e2 := Option.some.inj hyj
    omega

/-- C5 witness: in the static graph's generation lane the node at sorted
index 2 sits at vertical offset 440 = 120 + 2·160; and in a lane holding two
nodes of equal display name, the sorted lane keeps them in input order. -/
theorem C5_lane_sorting_witness :
    ((laneNodes getAgentGraph AgentGroup.generation).map (fun p => p.y))[2]?
        = some 440
    ∧ List.Sublist [dupN1, dupN2]
        ((laneNodes dupGraph AgentGroup.media).map (fun p => p.toAgentNode)) :=
  ⟨(C5_lane_sorting getAgentGraph .generation).2.2.1 2 (by decide),
   (C5_lane_sorting dupGraph .media).2.1 dupN1 dupN2 (List.Sublist.refl _) rfl⟩

/-- C6: for an edge from an orchestration node to an analysis node, the
orchestration lane has the smaller horizontal offset, the positioned edge is
present, and its start x-coordinate is at most the target's lane offset,
which is its end x-coordinate. -/
theorem C6_lane_ordering (g : AgentGraph) (e : AgentEdge) (a b : PositionedNode)
    (he : e ∈ g.edges) (hfa : findPos g e.fromId = some a)
    (hfb : findPos g e.toId = some b)
    (hga : a.group = .orchestration) (hgb : b.group = .analysis) :
    laneX .orchestration < laneX .analysis
    ∧ a.x < b.x
    ∧ ({ toAgentEdge := e, x1 := a.x + 200, y1 := a.y + 48,
          x2 := b.x, y2 := b.y + 48 } : PositionedEdge)
        ∈ (computeLayout g).edges
    ∧ a.x + 200 ≤ b.x := by
  have hax : a.x = laneX .orchestration := by
    rw [posX_lane (findPos_mem hfa), hga]
  have hbx : b.x = laneX .analysis := by
    rw [posX_lane (findPos_mem hfb), hgb]
  refine ⟨by decide, ?_, ?_, ?_⟩
  · rw [hax, hbx]; decide
  · exact List.mem_filterMap.mpr ⟨e, he, by rw [hfa, hfb]⟩
  · rw [hax, hbx]; decide

/-- C6 witness: the `a → b` edge of the two-node test graph, with `a` in the
orchestration lane (offset 120) and `b` in the analysis lane (offset 380). -/
theorem C6_lane_ordering_witness :
    laneX AgentGroup.orchestration < laneX AgentGroup.analysis
    ∧ (⟨nodeA, 120, 120⟩ : PositionedNode).x < (⟨nodeB, 380, 120⟩ : PositionedNode).x
    ∧ ({ toAgentEdge := { fromId := "a", toId := "b" }, x1 := 320, y1 := 168,
          x2 := 380, y2 := 168 } : PositionedEdge)
        ∈ (computeLayout cTestGraph).edges
    ∧ (⟨nodeA, 120, 120⟩ : PositionedNode).x + 200 ≤ (⟨nodeB, 380, 120⟩ : PositionedNode).x :=
  C6_lane_ordering cTestGraph { fromId := "a", toId := "b" }
    ⟨nodeA, 120, 120⟩ ⟨nodeB, 380, 120⟩ (by decide) (by decide) (by decide) rfl rfl

/-! ## Claim C3: correlating the fixed Veo message -/

/-- For the fixed message "Generating video with veo, please wait", the rule
loop returns the id of the first node whose lookup keys contain "veo": the
message matches none of the four earlier rule patterns, and it matches the
veo rule's pattern through "video". -/
theorem matchGo_video_message :
    ∀ (l : List AgentNode) (n : AgentNode),
      l.find? (fun k => keyHas k "veo") = some n →
      matchGo (jsToLower "Generating video with veo, please wait") l = some n.id := by
  intro l
  induction l with
  | nil => intro n h; cases h
  | cons n0 rest ih =>
    intro n h
    have hvoice : strIncludes (jsToLower "Generating video with veo, please wait") "voice" = false := by decide
    have hanalyz : strIncludes (jsToLower "Generating video with veo, please wait") "analyz" = false := by decide
    have himage : strIncludes (jsToLower "Generating video with veo, please wait") "image" = false := by decide
    have hcultural : strIncludes (jsToLower "Generating video with veo, please wait") "cultural" = false := by decide
    have hculture : strIncludes (jsToLower "Generating video with veo, please wait") "culture" = false := by decide
    have himagen : strIncludes (jsToLower "Generating video with veo, please wait") "imagen" = false := by decide
    have hvideo : strIncludes (jsToLower "Generating video with veo, please wait") "video" = true := by decide
    by_cases hk : keyHas n0 "veo" = true
    · rw [List.find?_cons_of_pos (p := fun k => keyHas k "veo") rest hk] at h
      obtain rfl := Option.some.inj h
      simp [matchGo, hvoice, hanalyz, himage, hcultural, hculture, himagen, hvideo, hk]
    · rw [List.find?_cons_of_neg (p := fun k => keyHas k "veo") rest
        (by simpa using hk)] at h
      simp [matchGo, hvoice, hanalyz, himage, hcultural, hculture, himagen, hvideo, hk,
        ih n h]

/-- C3 counterexample: a graph that contains the Veo Generate node exactly
as in the static graph, but preceded by the Veo Operation node, correlates
the message to "veo.operation", not to the Veo Generate node's id — the
claim fails for this graph. -/
theorem C3_correlation_veo_counterexample :
    veoSwapGraph.nodes.any (fun n => decide (n.name = "Veo Generate" ∧
        n.id = "veo.generate" ∧ n.path = "/api/veo/generate")) = true
    ∧ matchAgentByMessage veoSwapGraph "Generating video with veo, please wait"
        = some "veo.operation"
    ∧ "veo.operation" ≠ "veo.generate" := by decide

/-- C3 (amended): for every graph in which the first node whose name, path
or id contains "veo" is node `n`, correlating the message "Generating video
with veo, please wait" (no explicit agentId) returns `n.id`; in particular
it returns "veo.generate" whenever the Veo Generate node is the first such
node, as it is in the static graph. -/
theorem C3_correlation_veo (g : AgentGraph) (n : AgentNode)
    (h : g.nodes.find? (fun k => keyHas k "veo") = some n) :
    matchAgentByMessage g "Generating video with veo, please wait" = some n.id :=
  matchGo_video_message g.nodes n h

/-- C3 witness: on the static graph the first veo-keyed node is Veo
Generate, and the message correlates to "veo.generate". -/
theorem C3_correlation_veo_witness :
    matchAgentByMessage getAgentGraph "Generating video with veo, please wait"
      = some "veo.generate" :=
  C3_correlation_veo getAgentGraph
    { id := "veo.generate", name := "Veo Generate", path := "/api/veo/generate",
      methods := [.POST],
      description := some "Starts a video generation operation (Veo).",
      group := .generation, env := some ["GEMINI_API_KEY"] }
    (by decide)
